import Mathlib

/-!
Shallow embedding of `strict_encoding`'s type-classification core
(`rust/src/types.rs`): canonical name derivation (`StrictType::strict_name`),
member-set validation (`StrictTuple::strict_check_fields`,
`StrictStruct::strict_check_fields`, `StrictSum::strict_check_variants`),
variant lookup (`StrictSum::variant_ord`) and introspection-record
construction (`strict_type_info` of the tuple/struct/union/enum capabilities).

Modelling conventions:
* Rust `u8` ordinals are modelled as `Nat` (no arithmetic is performed on
  them, so the 0–255 bound is irrelevant to every statement below).
* A Rust `panic!`/`assert!`/`assert_eq!` (a definitional defect) is modelled
  by an `Except Defect` error result; the `unreachable!` abort inside
  `variant_ord` is modelled by the `none` case of an `Option` result.
* `BTreeSet` cardinality (`set.len()`) is modelled by `List.dedup.length`,
  the number of distinct elements of the list.
* The assertion message text is dropped except for the display name of the
  offending type, which each `Defect` constructor carries, computed exactly
  as the source does: `strict_name().unwrap_or("<unnamed>")`.
-/

set_option autoImplicit false

/-- Model of Rust `str::split_once` with a single-character pattern:
splits at the first occurrence of `sep`, the separator excluded. -/
def splitOnceChar (sep : Char) : List Char → Option (List Char × List Char)
  | [] => none
  | c :: rest =>
    if c = sep then some ([], rest)
    else
      match splitOnceChar sep rest with
      | none => none
      | some (pre, post) => some (c :: pre, post)

/-- Model of Rust `str::rsplit_once`: splits at the last occurrence of the
pattern `pat`, returning (part before, part after), the pattern excluded. -/
def rsplitOnceStr (pat : List Char) : List Char → Option (List Char × List Char)
  | [] => none
  | c :: rest =>
    match rsplitOnceStr pat rest with
    | some (pre, post) => some (c :: pre, post)
    | none =>
      if pat.isPrefixOf (c :: rest) then some ([], (c :: rest).drop pat.length)
      else none

/-- Model of Rust `str::trim_end_matches` with a character pattern:
removes every trailing occurrence of `sep`. -/
def trimEndMatchesChar (sep : Char) (s : List Char) : List Char :=
  (s.reverse.dropWhile (fun c => c = sep)).reverse

/-- Model of Rust `str::split` with a single-character pattern. Like the Rust
iterator, the empty string yields one empty piece. -/
def splitAllChar (sep : Char) : List Char → List (List Char)
  | [] => [[]]
  | c :: rest =>
    match splitAllChar sep rest with
    | [] => [[]]
    | r :: rs => if c = sep then [] :: r :: rs else (c :: r) :: rs

/-- The inner helper of `StrictType::strict_name`:
`path.rsplit_once("::").map(|(_, n)| n).unwrap_or(path)` — everything after
the last `::` namespace separator, or the whole path when there is none. -/
def get_ident (path : List Char) : List Char :=
  match rsplitOnceStr [':', ':'] path with
  | some (_, n) => n
  | none => path

/-- Core of `StrictType::strict_name`, on the character list of the fully
qualified type descriptor (Rust `any::type_name::<Self>()`):
split off the generic-argument list at the first `<`, trim trailing `>`,
then start from the unqualified base identifier and append `_` and the
unqualified identifier of each comma-separated generic argument. -/
def strictNameList (descriptor : List Char) : List Char :=
  let bg :=
    match splitOnceChar '<' descriptor with
    | some p => p
    | none => (descriptor, [])
  let generics := trimEndMatchesChar '>' bg.2
  (splitAllChar ',' generics).foldl
    (fun acc arg => acc ++ '_' :: get_ident arg) (get_ident bg.1)

/-- Model of the default `StrictType::strict_name`, as a function of the
fully qualified type descriptor string. The source always returns `Some`. -/
def strict_name (descriptor : String) : Option String :=
  some (String.mk (strictNameList descriptor.data))

/-- A definitional defect: the model of the `assert!`/`assert_eq!`/`expect`
panics of the validation and introspection paths. Each validation defect
carries the display name of the offending type
(`strict_name().unwrap_or("<unnamed>")`), as the assertion messages do. -/
inductive Defect
  | emptyType (ty : String)
  | repeatedIds (ty : String)
  | repeatedNames (ty : String)
  | invalidFirstVariant
  deriving DecidableEq

/-- The display name used in validation diagnostics:
`strict_name().unwrap_or_else(|| s!("<unnamed>"))`. -/
def displayName (name : Option String) : String :=
  name.getD "<unnamed>"

/-- Model of `StrictTuple::strict_check_fields`: fails on an empty field
list; fails on repeated field ordinals (the `BTreeSet` built from the
fields is smaller than the field list). -/
def StrictTuple.strict_check_fields (name : Option String) (allFields : List Nat) :
    Except Defect Unit :=
  let nm := displayName name
  if allFields.isEmpty then .error (.emptyType nm)
  else if allFields.dedup.length = allFields.length then .ok ()
  else .error (.repeatedIds nm)

/-- Model of `StrictStruct::strict_check_fields`: fails on an empty field
list; then on repeated field ordinals; then on repeated field names (the
two `BTreeSet`s obtained by unzipping the `(ordinal, name)` pairs are each
compared against the length of the field list, in that order). -/
def StrictStruct.strict_check_fields (name : Option String)
    (allFields : List (Nat × String)) : Except Defect Unit :=
  let nm := displayName name
  if allFields.isEmpty then .error (.emptyType nm)
  else if (allFields.map Prod.fst).dedup.length = allFields.length then
    if (allFields.map Prod.snd).dedup.length = allFields.length then .ok ()
    else .error (.repeatedNames nm)
  else .error (.repeatedIds nm)

/-- Model of `StrictSum::strict_check_variants`: textually the same checks
as `StrictStruct::strict_check_fields`, on the variant list. -/
def StrictSum.strict_check_variants (name : Option String)
    (allVariants : List (Nat × String)) : Except Defect Unit :=
  let nm := displayName name
  if allVariants.isEmpty then .error (.emptyType nm)
  else if (allVariants.map Prod.fst).dedup.length = allVariants.length then
    if (allVariants.map Prod.snd).dedup.length = allVariants.length then .ok ()
    else .error (.repeatedNames nm)
  else .error (.repeatedIds nm)

/-- Decidable equality on `Except`, so that concrete validation results can
be compared by `decide`. -/
instance {ε α : Type} [DecidableEq ε] [DecidableEq α] : DecidableEq (Except ε α) := by
  intro a b
  cases a <;> cases b
  case error.error e f =>
    exact if h : e = f then .isTrue (by rw [h]) else
      .isFalse (fun hh => h (Except.error.inj hh))
  case error.ok e y => exact .isFalse (fun hh => Except.noConfusion hh)
  case ok.error x f => exact .isFalse (fun hh => Except.noConfusion hh)
  case ok.ok x y =>
    exact if h : x = y then .isTrue (by rw [h]) else
      .isFalse (fun hh => h (Except.ok.inj hh))

/-- Model of the structural class `TypeClass`, carrying the member metadata
exactly as declared (same ordinals and names, declared order). -/
inductive TypeClass
  | embedded
  | enum (variants : List (Nat × String))
  | union (variants : List (Nat × String))
  | tuple (fields : List Nat)
  | struct (fields : List (Nat × String))
  deriving DecidableEq

/-- Model of the introspection record `TypeInfo<T>`. -/
structure TypeInfo (T : Type) where
  lib : String
  name : Option String
  cls : TypeClass
  dumb : T

/-- Model of the recoverable error `VariantError<V>`: the type's name
together with the offending value. -/
structure VariantError (V : Type) where
  typeName : String
  value : V
  deriving DecidableEq

/-- An implementation of the `StrictType` + `StrictSum` capabilities:
the library-name constant, the fully qualified type descriptor
(`any::type_name::<Self>()`), the declared `ALL_VARIANTS` table and the
host-supplied `variant_name` accessor. -/
structure StrictSumImpl (T : Type) where
  strictLibName : String
  typeDescriptor : String
  allVariants : List (Nat × String)
  variantName : T → String

/-- The scan inside `StrictSum::variant_ord`: walk `ALL_VARIANTS` in order
and return the ordinal paired with the first matching name, if any. -/
def lookupVariant : List (Nat × String) → String → Option Nat
  | [], _ => none
  | (ord, nm) :: rest, v => if nm = v then some ord else lookupVariant rest v

/-- Model of `StrictSum::variant_ord`: look the instance's reported variant
name up in the declared table. The `none` result models the `unreachable!`
abort taken when the name appears nowhere in `ALL_VARIANTS` — a fatal
internal-consistency panic, not a recoverable `VariantError`. -/
def StrictSumImpl.variant_ord {T : Type} (imp : StrictSumImpl T) (x : T) : Option Nat :=
  lookupVariant imp.allVariants (imp.variantName x)

/-- An implementation of the `StrictEnum` capability: a `StrictSum` plus the
`TryFrom<u8, Error = VariantError<u8>>` conversion required by the trait
bound (supplied by the implementing type, typically derive-generated). -/
structure StrictEnumImpl (T : Type) extends StrictSumImpl T where
  tryFrom : Nat → Except (VariantError Nat) T

/-- An implementation of the `StrictUnion` capability: a `StrictSum` plus
the `StrictDumb` placeholder instance. -/
structure StrictUnionImpl (T : Type) extends StrictSumImpl T where
  strictDumb : T

/-- An implementation of `StrictType` + `StrictProduct` + `StrictTuple`:
library name, type descriptor, bare-ordinal `ALL_FIELDS` and the
`StrictDumb` placeholder instance. -/
structure StrictTupleImpl (T : Type) where
  strictLibName : String
  typeDescriptor : String
  allFields : List Nat
  strictDumb : T

/-- An implementation of `StrictType` + `StrictProduct` + `StrictStruct`:
library name, type descriptor, `(ordinal, name)` `ALL_FIELDS` and the
`StrictDumb` placeholder instance. -/
structure StrictStructImpl (T : Type) where
  strictLibName : String
  typeDescriptor : String
  allFields : List (Nat × String)
  strictDumb : T

/-- Model of `StrictTuple::strict_type_info`: run the field validation
(a panic there aborts construction), then package library name, derived
canonical name, the `Tuple` class over the declared fields, and the
placeholder instance. -/
def StrictTupleImpl.strict_type_info {T : Type} (imp : StrictTupleImpl T) :
    Except Defect (TypeInfo T) :=
  match StrictTuple.strict_check_fields (strict_name imp.typeDescriptor) imp.allFields with
  | .error e => .error e
  | .ok _ =>
    .ok { lib := imp.strictLibName, name := strict_name imp.typeDescriptor,
          cls := .tuple imp.allFields, dumb := imp.strictDumb }

/-- Model of `StrictStruct::strict_type_info`. -/
def StrictStructImpl.strict_type_info {T : Type} (imp : StrictStructImpl T) :
    Except Defect (TypeInfo T) :=
  match StrictStruct.strict_check_fields (strict_name imp.typeDescriptor) imp.allFields with
  | .error e => .error e
  | .ok _ =>
    .ok { lib := imp.strictLibName, name := strict_name imp.typeDescriptor,
          cls := .struct imp.allFields, dumb := imp.strictDumb }

/-- Model of `StrictUnion::strict_type_info`. -/
def StrictUnionImpl.strict_type_info {T : Type} (imp : StrictUnionImpl T) :
    Except Defect (TypeInfo T) :=
  match StrictSum.strict_check_variants (strict_name imp.typeDescriptor) imp.allVariants with
  | .error e => .error e
  | .ok _ =>
    .ok { lib := imp.strictLibName, name := strict_name imp.typeDescriptor,
          cls := .union imp.allVariants, dumb := imp.strictDumb }

/-- Model of `StrictEnum::strict_type_info`: run the variant validation,
then build the record whose placeholder is
`Self::try_from(Self::ALL_VARIANTS[0].0).expect("first variant contains invalid value")` —
reconstruction from the ordinal of the FIRST entry of the declared table;
a failing conversion is the `invalidFirstVariant` defect (the `expect`
panic). -/
def StrictEnumImpl.strict_type_info {T : Type} (imp : StrictEnumImpl T) :
    Except Defect (TypeInfo T) :=
  match StrictSum.strict_check_variants (strict_name imp.typeDescriptor) imp.allVariants with
  | .error e => .error e
  | .ok _ =>
    match imp.tryFrom imp.allVariants.headI.1 with
    | .error _ => .error .invalidFirstVariant
    | .ok d =>
      .ok { lib := imp.strictLibName, name := strict_name imp.typeDescriptor,
            cls := .enum imp.allVariants, dumb := d }

/-- Modelled from the spec: the `TryFrom<u8>` conversion of a concrete
`StrictEnum` type is derive-generated and not under `src/`; per the spec it
must succeed for every declared ordinal — yielding the instance of the
variant carrying that ordinal — and fail with the recoverable
`VariantError(type_name, value)` for any other value. Enum instances are
represented by their `(ordinal, name)` descriptor. -/
def enumTryFrom (typeName : String) (variants : List (Nat × String)) (v : Nat) :
    Except (VariantError Nat) (Nat × String) :=
  match variants.find? (fun p => p.1 == v) with
  | some p => .ok p
  | none => .error ⟨typeName, v⟩

/-- Modelled from the spec: a concrete `StrictEnum` implementation over the
`(ordinal, name)` representation — `variant_name` reports the variant's
declared name, and `TryFrom<u8>` is `enumTryFrom`. -/
def mkEnumImpl (lib typeName : String) (variants : List (Nat × String)) :
    StrictEnumImpl (Nat × String) :=
  { strictLibName := lib, typeDescriptor := typeName, allVariants := variants,
    variantName := Prod.snd, tryFrom := enumTryFrom typeName variants }

/-! ### Helper lemmas -/

/-- The `BTreeSet` cardinality test of the source: the number of distinct
elements equals the list length iff the list has no duplicates. -/
lemma dedup_length_eq_iff {α : Type} [DecidableEq α] (l : List α) :
    l.dedup.length = l.length ↔ l.Nodup := by
  constructor
  · intro h
    have he : l.dedup = l := (List.dedup_sublist l).eq_of_length h
    rw [← he]
    exact l.nodup_dedup
  · intro h
    rw [List.dedup_eq_self.mpr h]

lemma tuple_check_empty (name : Option String) :
    StrictTuple.strict_check_fields name [] = .error (.emptyType (displayName name)) := rfl

lemma tuple_check_dup_ids (name : Option String) (fs : List Nat) (h : ¬ fs.Nodup) :
    StrictTuple.strict_check_fields name fs = .error (.repeatedIds (displayName name)) := by
  have hne : fs ≠ [] := by rintro rfl; exact h List.nodup_nil
  have hlen : ¬ fs.dedup.length = fs.length := fun hl => h ((dedup_length_eq_iff fs).mp hl)
  simp only [StrictTuple.strict_check_fields, List.isEmpty_eq_true]
  rw [if_neg hne, if_neg hlen]

lemma tuple_check_ok (name : Option String) (fs : List Nat) (hne : fs ≠ [])
    (h : fs.Nodup) : StrictTuple.strict_check_fields name fs = .ok () := by
  have hlen : fs.dedup.length = fs.length := (dedup_length_eq_iff fs).mpr h
  simp only [StrictTuple.strict_check_fields, List.isEmpty_eq_true]
  rw [if_neg hne, if_pos hlen]

lemma struct_check_empty (name : Option String) :
    StrictStruct.strict_check_fields name [] = .error (.emptyType (displayName name)) := rfl

lemma struct_check_dup_ids (name : Option String) (fs : List (Nat × String))
    (h : ¬ (fs.map Prod.fst).Nodup) :
    StrictStruct.strict_check_fields name fs = .error (.repeatedIds (displayName name)) := by
  have hne : fs ≠ [] := by rintro rfl; exact h List.nodup_nil
  have hlen : ¬ (fs.map Prod.fst).dedup.length = fs.length := fun hl =>
    h ((dedup_length_eq_iff (fs.map Prod.fst)).mp (by rw [hl, List.length_map]))
  simp only [StrictStruct.strict_check_fields, List.isEmpty_eq_true]
  rw [if_neg hne, if_neg hlen]

lemma struct_check_dup_names (name : Option String) (fs : List (Nat × String))
    (hids : (fs.map Prod.fst).Nodup) (h : ¬ (fs.map Prod.snd).Nodup) :
    StrictStruct.strict_check_fields name fs = .error (.repeatedNames (displayName name)) := by
  have hne : fs ≠ [] := by rintro rfl; exact h List.nodup_nil
  have hlen : (fs.map Prod.fst).dedup.length = fs.length := by
    rw [(dedup_length_eq_iff (fs.map Prod.fst)).mpr hids, List.length_map]
  have hlen2 : ¬ (fs.map Prod.snd).dedup.length = fs.length := fun hl =>
    h ((dedup_length_eq_iff (fs.map Prod.snd)).mp (by rw [hl, List.length_map]))
  simp only [StrictStruct.strict_check_fields, List.isEmpty_eq_true]
  rw [if_neg hne, if_pos hlen, if_neg hlen2]

lemma struct_check_ok (name : Option String) (fs : List (Nat × String)) (hne : fs ≠ [])
    (hids : (fs.map Prod.fst).Nodup) (hnms : (fs.map Prod.snd).Nodup) :
    StrictStruct.strict_check_fields name fs = .ok () := by
  have hlen : (fs.map Prod.fst).dedup.length = fs.length := by
    rw [(dedup_length_eq_iff (fs.map Prod.fst)).mpr hids, List.length_map]
  have hlen2 : (fs.map Prod.snd).dedup.length = fs.length := by
    rw [(dedup_length_eq_iff (fs.map Prod.snd)).mpr hnms, List.length_map]
  simp only [StrictStruct.strict_check_fields, List.isEmpty_eq_true]
  rw [if_neg hne, if_pos hlen, if_pos hlen2]

/-- `StrictSum::strict_check_variants` is the same computation as
`StrictStruct::strict_check_fields`. -/
lemma sum_check_eq_struct_check (name : Option String) (vs : List (Nat × String)) :
    StrictSum.strict_check_variants name vs = StrictStruct.strict_check_fields name vs := rfl

lemma lookupVariant_eq_none (vs : List (Nat × String)) (v : String)
    (h : v ∉ vs.map Prod.snd) : lookupVariant vs v = none := by
  induction vs with
  | nil => rfl
  | cons p rest ih =>
    simp only [List.map_cons, List.mem_cons] at h
    push_neg at h
    obtain ⟨p1, p2⟩ := p
    simp only [lookupVariant]
    rw [if_neg (fun hh => h.1 hh.symm)]
    exact ih h.2

lemma lookupVariant_isSome (vs : List (Nat × String)) (v : String)
    (h : v ∈ vs.map Prod.snd) : (lookupVariant vs v).isSome = true := by
  induction vs with
  | nil => simp at h
  | cons p rest ih =>
    obtain ⟨p1, p2⟩ := p
    simp only [lookupVariant]
    by_cases hv : p2 = v
    · rw [if_pos hv]; rfl
    · rw [if_neg hv]
      simp only [List.map_cons, List.mem_cons] at h
      exact ih (h.resolve_left (fun hh => hv hh.symm))

lemma lookupVariant_mem (vs : List (Nat × String)) (v : String) (ord : Nat)
    (h : lookupVariant vs v = some ord) : (ord, v) ∈ vs := by
  induction vs with
  | nil => simp [lookupVariant] at h
  | cons p rest ih =>
    obtain ⟨p1, p2⟩ := p
    simp only [lookupVariant] at h
    by_cases hv : p2 = v
    · rw [if_pos hv] at h
      obtain rfl : p1 = ord := Option.some.inj h
      rw [← hv]
      exact List.mem_cons_self _ _
    · rw [if_neg hv] at h
      exact List.mem_cons_of_mem _ (ih h)

/-- With duplicate-free names, looking up the name of a declared variant
recovers exactly its paired ordinal. -/
lemma lookupVariant_of_mem (vs : List (Nat × String)) (ord : Nat) (v : String)
    (hn : (vs.map Prod.snd).Nodup) (h : (ord, v) ∈ vs) : lookupVariant vs v = some ord := by
  induction vs with
  | nil => simp at h
  | cons p rest ih =>
    obtain ⟨p1, p2⟩ := p
    simp only [List.map_cons, List.nodup_cons] at hn
    rcases List.mem_cons.mp h with heq | hmem
    · obtain ⟨rfl, rfl⟩ := Prod.mk.injEq .. ▸ And.intro (congrArg Prod.fst heq)
        (congrArg Prod.snd heq)
      simp [lookupVariant]
    · have hne : p2 ≠ v := by
        rintro rfl
        exact hn.1 (List.mem_map.mpr ⟨(ord, p2), hmem, rfl⟩)
      simp only [lookupVariant, if_neg hne]
      exact ih hn.2 hmem

lemma splitOnceChar_append (sep : Char) (pre post : List Char) (h : sep ∉ pre) :
    splitOnceChar sep (pre ++ sep :: post) = some (pre, post) := by
  induction pre with
  | nil => simp [splitOnceChar]
  | cons a l ih =>
    have ha : a ≠ sep := fun hh => h (hh ▸ List.mem_cons_self a l)
    simp only [List.cons_append, splitOnceChar, List.append_eq]
    rw [if_neg ha, ih (fun hm => h (List.mem_cons_of_mem a hm))]

lemma dropWhile_eq_self_of_not_mem {p : Char → Bool} (l : List Char)
    (h : ∀ c ∈ l, p c = false) : l.dropWhile p = l := by
  cases l with
  | nil => rfl
  | cons a l =>
    rw [List.dropWhile_cons, h a (List.mem_cons_self a l)]
    simp

lemma trimEndMatchesChar_append (arg : List Char) (h : '>' ∉ arg) :
    trimEndMatchesChar '>' (arg ++ ['>']) = arg := by
  unfold trimEndMatchesChar
  rw [List.reverse_append]
  simp only [List.reverse_cons, List.reverse_nil, List.nil_append, List.singleton_append,
    List.dropWhile_cons]
  rw [if_pos (by simp)]
  rw [dropWhile_eq_self_of_not_mem arg.reverse
    (fun c hc => decide_eq_false (fun hh : c = '>' => h (hh ▸ List.mem_reverse.mp hc)))]
  exact List.reverse_reverse arg

lemma splitAllChar_no_sep (sep : Char) (l : List Char) (h : sep ∉ l) :
    splitAllChar sep l = [l] := by
  induction l with
  | nil => rfl
  | cons c rest ih =>
    have hc : c ≠ sep := fun hh => h (hh ▸ List.mem_cons_self c rest)
    simp only [splitAllChar, ih (fun hm => h (List.mem_cons_of_mem c hm))]
    rw [if_neg hc]

/-- The canonical name of a single-argument generic descriptor
`base<arg>` (no nested generic punctuation, no comma in the argument)
is the unqualified base identifier, an underscore, and the unqualified
argument identifier. -/
lemma strictNameList_generic (base arg : List Char) (hb : '<' ∉ base)
    (hc : ',' ∉ arg) (hg : '>' ∉ arg) :
    strictNameList (base ++ '<' :: (arg ++ ['>']))
      = get_ident base ++ '_' :: get_ident arg := by
  unfold strictNameList
  rw [splitOnceChar_append '<' base (arg ++ ['>']) hb]
  simp only
  rw [trimEndMatchesChar_append arg hg, splitAllChar_no_sep ',' arg hc]
  rfl

/-! ### Claim theorems -/

/-- C2: the claim states that for a non-generic type (descriptor with no
generic-argument list) the derived canonical name is exactly the
unqualified base identifier with nothing appended. The code disagrees:
splitting the empty generics string on `,` yields one empty piece, so the
loop appends a trailing underscore; `foo::Bar` derives `Bar_`, not `Bar`.
The spec's conditional "If the descriptor contains a generic-argument
list" is clearly the intent, and the unconditional append a slip. -/
theorem nongeneric_name_trailing_underscore :
    strict_name "foo::Bar" = some "Bar_" ∧ strict_name "foo::Bar" ≠ some "Bar" :=
  ⟨rfl, by decide⟩

/-- C7: every empty member declaration — tuple, struct, or sum — fails
validation with the empty-type defect. -/
theorem empty_declaration_fails (name : Option String) :
    StrictTuple.strict_check_fields name [] = .error (.emptyType (displayName name))
    ∧ StrictStruct.strict_check_fields name [] = .error (.emptyType (displayName name))
    ∧ StrictSum.strict_check_variants name [] = .error (.emptyType (displayName name)) :=
  ⟨rfl, rfl, rfl⟩

/-- Witness for C7 at a concrete type name. -/
theorem empty_declaration_fails_witness :
    StrictTuple.strict_check_fields (some "T") [] = .error (.emptyType "T")
    ∧ StrictStruct.strict_check_fields (some "T") [] = .error (.emptyType "T")
    ∧ StrictSum.strict_check_variants (some "T") [] = .error (.emptyType "T") :=
  empty_declaration_fails (some "T")

/-- C10: the default canonical-name derivation always returns a name —
never the `none` that the `Option` result type permits — so the
`<unnamed>` fallback in validation diagnostics can only arise for types
overriding the derivation. -/
theorem strict_name_always_some (descriptor : String) :
    (strict_name descriptor).isSome = true ∧ strict_name descriptor ≠ none :=
  ⟨rfl, fun h => Option.noConfusion h⟩

/-- Witness for C10 at a concrete descriptor. -/
theorem strict_name_always_some_witness :
    (strict_name "foo::Bar").isSome = true ∧ strict_name "foo::Bar" ≠ none :=
  strict_name_always_some "foo::Bar"

/-- C3: in struct field validation both duplicate checks are observable
independently: distinct ordinals with repeated names fail with the
duplicate-names defect, and repeated ordinals fail with the duplicate-ids
defect. -/
theorem struct_dup_checks_independent (name : Option String) (fs : List (Nat × String)) :
    ((fs.map Prod.fst).Nodup → ¬ (fs.map Prod.snd).Nodup →
      StrictStruct.strict_check_fields name fs = .error (.repeatedNames (displayName name)))
    ∧ (¬ (fs.map Prod.fst).Nodup →
      StrictStruct.strict_check_fields name fs = .error (.repeatedIds (displayName name))) :=
  ⟨fun hids hnms => struct_check_dup_names name fs hids hnms,
   fun hids => struct_check_dup_ids name fs hids⟩

/-- Witness for C3 at the spec's own example: fields `(0,"amount")` and
`(1,"amount")` have distinct ordinals but a repeated name, and fail with
the duplicate-names defect; repeated ordinals fail with duplicate-ids. -/
theorem struct_dup_checks_independent_witness :
    StrictStruct.strict_check_fields (some "Account") [(0, "amount"), (1, "amount")]
      = .error (.repeatedNames "Account")
    ∧ StrictStruct.strict_check_fields (some "Account") [(0, "a"), (0, "b")]
      = .error (.repeatedIds "Account") :=
  ⟨(struct_dup_checks_independent (some "Account") [(0, "amount"), (1, "amount")]).1
      (by decide) (by decide),
   (struct_dup_checks_independent (some "Account") [(0, "a"), (0, "b")]).2 (by decide)⟩

/-- C6 counterexample: the claim says a struct/sum declaration containing
a duplicate name fails reporting the duplicate-name defect. The
declaration `[(0,"amount"),(0,"amount")]` contains a duplicate name, yet
validation reports the duplicate-ids defect, because the ordinal check is
asserted first. -/
theorem dup_name_reported_as_dup_ids :
    ¬ ([(0, "amount"), (0, "amount")].map (Prod.snd (α := Nat))).Nodup
    ∧ StrictStruct.strict_check_fields (some "S") [(0, "amount"), (0, "amount")]
      = .error (.repeatedIds "S")
    ∧ Defect.repeatedIds "S" ≠ Defect.repeatedNames "S" :=
  ⟨by decide, rfl, by decide⟩

/-- C6 (amended): any declaration with a duplicate ordinal fails with the
duplicate-ids defect (tuple, struct and sum alike); a struct or sum
declaration with pairwise-distinct ordinals and a duplicate name fails
with the duplicate-names defect (when duplicate ordinals are also present,
the duplicate-ids defect is reported instead, as the ordinal check is
asserted first). -/
theorem dup_member_defect_reporting (name : Option String) (tf : List Nat)
    (sf vs : List (Nat × String)) :
    (¬ tf.Nodup →
      StrictTuple.strict_check_fields name tf = .error (.repeatedIds (displayName name)))
    ∧ (¬ (sf.map Prod.fst).Nodup →
      StrictStruct.strict_check_fields name sf = .error (.repeatedIds (displayName name)))
    ∧ ((sf.map Prod.fst).Nodup → ¬ (sf.map Prod.snd).Nodup →
      StrictStruct.strict_check_fields name sf = .error (.repeatedNames (displayName name)))
    ∧ (¬ (vs.map Prod.fst).Nodup →
      StrictSum.strict_check_variants name vs = .error (.repeatedIds (displayName name)))
    ∧ ((vs.map Prod.fst).Nodup → ¬ (vs.map Prod.snd).Nodup →
      StrictSum.strict_check_variants name vs = .error (.repeatedNames (displayName name))) :=
  ⟨fun h => tuple_check_dup_ids name tf h,
   fun h => struct_check_dup_ids name sf h,
   fun h1 h2 => struct_check_dup_names name sf h1 h2,
   fun h => (sum_check_eq_struct_check name vs).trans (struct_check_dup_ids name vs h),
   fun h1 h2 => (sum_check_eq_struct_check name vs).trans
     (struct_check_dup_names name vs h1 h2)⟩

/-- Witness for C6 (amended) at concrete declarations. -/
theorem dup_member_defect_reporting_witness :
    StrictTuple.strict_check_fields (some "T") [0, 0] = .error (.repeatedIds "T")
    ∧ StrictStruct.strict_check_fields (some "T") [(2, "x"), (2, "y")]
      = .error (.repeatedIds "T")
    ∧ StrictStruct.strict_check_fields (some "T") [(0, "x"), (1, "x")]
      = .error (.repeatedNames "T")
    ∧ StrictSum.strict_check_variants (some "T") [(3, "u"), (3, "w")]
      = .error (.repeatedIds "T")
    ∧ StrictSum.strict_check_variants (some "T") [(0, "u"), (1, "u")]
      = .error (.repeatedNames "T") :=
  ⟨(dup_member_defect_reporting (some "T") [0, 0] [] []).1 (by decide),
   (dup_member_defect_reporting (some "T") [] [(2, "x"), (2, "y")] []).2.1 (by decide),
   (dup_member_defect_reporting (some "T") [] [(0, "x"), (1, "x")] []).2.2.1
     (by decide) (by decide),
   (dup_member_defect_reporting (some "T") [] [] [(3, "u"), (3, "w")]).2.2.2.1 (by decide),
   (dup_member_defect_reporting (some "T") [] [] [(0, "u"), (1, "u")]).2.2.2.2
     (by decide) (by decide)⟩

/-- C4: for every tuple, struct, or union with a non-empty, collision-free
member declaration, validation succeeds and the introspection record's
structural class carries exactly the declared member set — same ordinals
and names, in the declared order — together with the library name, the
derived canonical name and the placeholder instance. -/
theorem valid_declaration_type_info_exact {T : Type} (lib td : String) (d : T)
    (vn : T → String) (tf : List Nat) (sf vs : List (Nat × String))
    (h1 : tf ≠ []) (h2 : tf.Nodup)
    (h3 : sf ≠ []) (h4 : (sf.map Prod.fst).Nodup) (h5 : (sf.map Prod.snd).Nodup)
    (h6 : vs ≠ []) (h7 : (vs.map Prod.fst).Nodup) (h8 : (vs.map Prod.snd).Nodup) :
    StrictTupleImpl.strict_type_info ⟨lib, td, tf, d⟩
      = .ok ⟨lib, strict_name td, .tuple tf, d⟩
    ∧ StrictStructImpl.strict_type_info ⟨lib, td, sf, d⟩
      = .ok ⟨lib, strict_name td, .struct sf, d⟩
    ∧ StrictUnionImpl.strict_type_info ⟨⟨lib, td, vs, vn⟩, d⟩
      = .ok ⟨lib, strict_name td, .union vs, d⟩ := by
  refine ⟨?_, ?_, ?_⟩
  · simp only [StrictTupleImpl.strict_type_info]
    rw [tuple_check_ok _ tf h1 h2]
  · simp only [StrictStructImpl.strict_type_info]
    rw [struct_check_ok _ sf h3 h4 h5]
  · simp only [StrictUnionImpl.strict_type_info, sum_check_eq_struct_check]
    rw [struct_check_ok _ vs h6 h7 h8]

/-- Witness for C4, using the spec's tuple example `[0,1,2]`. -/
theorem valid_declaration_type_info_exact_witness :
    StrictTupleImpl.strict_type_info ⟨"lib", "foo::T", [0, 1, 2], (0 : Nat)⟩
      = .ok ⟨"lib", strict_name "foo::T", .tuple [0, 1, 2], 0⟩
    ∧ StrictStructImpl.strict_type_info ⟨"lib", "foo::T", [(0, "a"), (1, "b")], (0 : Nat)⟩
      = .ok ⟨"lib", strict_name "foo::T", .struct [(0, "a"), (1, "b")], 0⟩
    ∧ StrictUnionImpl.strict_type_info
        ⟨⟨"lib", "foo::T", [(0, "Red"), (1, "Green")], fun _ => ""⟩, (0 : Nat)⟩
      = .ok ⟨"lib", strict_name "foo::T", .union [(0, "Red"), (1, "Green")], 0⟩ :=
  valid_declaration_type_info_exact "lib" "foo::T" 0 (fun _ => "")
    [0, 1, 2] [(0, "a"), (1, "b")] [(0, "Red"), (1, "Green")]
    (by decide) (by decide) (by decide) (by decide) (by decide)
    (by decide) (by decide) (by decide)

/-- C8: `variant_ord` scans the declared member set for an entry whose
name equals the instance's reported variant name and returns that entry's
paired ordinal; when the reported name appears nowhere in the declared
set the result is the fatal `unreachable!` abort (modelled `none`, not a
recoverable error value), and under the precondition that the reported
name is declared, that abort branch is unreachable. -/
theorem variant_ord_scans_declared_set {T : Type} (imp : StrictSumImpl T) (x : T) :
    imp.variant_ord x = lookupVariant imp.allVariants (imp.variantName x)
    ∧ (∀ ord : Nat, imp.variant_ord x = some ord → (ord, imp.variantName x) ∈ imp.allVariants)
    ∧ (imp.variantName x ∈ imp.allVariants.map Prod.snd → (imp.variant_ord x).isSome = true)
    ∧ (imp.variantName x ∉ imp.allVariants.map Prod.snd → imp.variant_ord x = none) :=
  ⟨rfl,
   fun ord h => lookupVariant_mem _ _ ord h,
   fun h => lookupVariant_isSome _ _ h,
   fun h => lookupVariant_eq_none _ _ h⟩

/-- Witness for C8 at a concrete two-variant sum. -/
theorem variant_ord_scans_declared_set_witness :
    StrictSumImpl.variant_ord ⟨"lib", "Color", [(0, "Red"), (1, "Green")], fun s => s⟩ "Blue"
      = none
    ∧ (StrictSumImpl.variant_ord ⟨"lib", "Color", [(0, "Red"), (1, "Green")], fun s => s⟩
        "Green").isSome = true
    ∧ ((1 : Nat), "Green") ∈ [((0 : Nat), "Red"), (1, "Green")] :=
  ⟨(variant_ord_scans_declared_set ⟨"lib", "Color", [(0, "Red"), (1, "Green")], fun s => s⟩
      "Blue").2.2.2 (by decide),
   (variant_ord_scans_declared_set ⟨"lib", "Color", [(0, "Red"), (1, "Green")], fun s => s⟩
      "Green").2.2.1 (by decide),
   (variant_ord_scans_declared_set ⟨"lib", "Color", [(0, "Red"), (1, "Green")], fun s => s⟩
      "Green").2.1 1 (by rfl)⟩

/-- C9: in the spec-modelled enum implementation, reconstruction from any
declared ordinal succeeds and the resulting instance's variant name
resolves back to the same ordinal, while reconstruction from an undeclared
value fails with the recoverable `VariantError` carrying the type name and
the offending value (not a defect abort). -/
theorem enum_ordinal_roundtrip (lib tn : String) (vs : List (Nat × String))
    (hnames : (vs.map Prod.snd).Nodup) (v : Nat) :
    (v ∈ vs.map Prod.fst →
      ∃ inst, (mkEnumImpl lib tn vs).tryFrom v = .ok inst
        ∧ (mkEnumImpl lib tn vs).toStrictSumImpl.variant_ord inst = some v)
    ∧ (v ∉ vs.map Prod.fst → (mkEnumImpl lib tn vs).tryFrom v = .error ⟨tn, v⟩) := by
  constructor
  · intro hv
    cases hf : vs.find? (fun p => p.1 == v) with
    | none =>
      exfalso
      rw [List.find?_eq_none] at hf
      obtain ⟨p, hp, hpv⟩ := List.mem_map.mp hv
      exact hf p hp (by simp [hpv])
    | some p =>
      have hpv : p.1 = v := by simpa using List.find?_some hf
      have hpm : p ∈ vs := List.mem_of_find?_eq_some hf
      refine ⟨p, ?_, ?_⟩
      · show enumTryFrom tn vs v = .ok p
        simp [enumTryFrom, hf]
      · show lookupVariant vs p.2 = some v
        rw [← hpv]
        exact lookupVariant_of_mem vs p.1 p.2 hnames (by simpa using hpm)
  · intro hv
    show enumTryFrom tn vs v = .error ⟨tn, v⟩
    have hf : vs.find? (fun p => p.1 == v) = none := by
      rw [List.find?_eq_none]
      intro p hp hpv
      exact hv (List.mem_map.mpr ⟨p, hp, by simpa using hpv⟩)
    simp [enumTryFrom, hf]

/-- Witness for C9 at the spec's `Red/Green/Blue` enum: ordinal `1` round
trips and ordinal `3` fails gracefully. -/
theorem enum_ordinal_roundtrip_witness :
    (∃ inst,
      (mkEnumImpl "lib" "Color" [(0, "Red"), (1, "Green"), (2, "Blue")]).tryFrom 1
        = .ok inst
      ∧ (mkEnumImpl "lib" "Color"
          [(0, "Red"), (1, "Green"), (2, "Blue")]).toStrictSumImpl.variant_ord inst
        = some 1)
    ∧ (mkEnumImpl "lib" "Color" [(0, "Red"), (1, "Green"), (2, "Blue")]).tryFrom 3
      = .error ⟨"Color", 3⟩ :=
  ⟨(enum_ordinal_roundtrip "lib" "Color" [(0, "Red"), (1, "Green"), (2, "Blue")]
      (by decide) 1).1 (by decide),
   (enum_ordinal_roundtrip "lib" "Color" [(0, "Red"), (1, "Green"), (2, "Blue")]
      (by decide) 3).2 (by decide)⟩

/-- C5: canonical-name derivation is deterministic (it is a pure function
of the descriptor), and for a single-argument generic descriptor
`base<arg>` the derived name is the unqualified base identifier, an
underscore, and the unqualified argument identifier. -/
theorem strict_name_deterministic_and_generic (base arg : List Char) (hb : '<' ∉ base)
    (hc : ',' ∉ arg) (hg : '>' ∉ arg) :
    (∀ s : String, strict_name s = strict_name s)
    ∧ strict_name (String.mk (base ++ '<' :: (arg ++ ['>'])))
      = some (String.mk (get_ident base ++ '_' :: get_ident arg)) :=
  ⟨fun _ => rfl,
   congrArg (fun l => some (String.mk l)) (strictNameList_generic base arg hb hc hg)⟩

/-- Witness for C5 at `lib::Wrapper<lib::Inner>`, whose derived canonical
name is `Wrapper_Inner`. -/
theorem strict_name_deterministic_and_generic_witness :
    strict_name (String.mk ("lib::Wrapper".data ++ '<' :: ("lib::Inner".data ++ ['>'])))
      = some (String.mk (get_ident "lib::Wrapper".data ++ '_' :: get_ident "lib::Inner".data))
    ∧ strict_name "lib::Wrapper<lib::Inner>" = some "Wrapper_Inner" :=
  ⟨(strict_name_deterministic_and_generic "lib::Wrapper".data "lib::Inner".data
      (by decide) (by decide) (by decide)).2,
   by decide⟩

/-- C1 counterexample: the claim says the enum placeholder is the instance
reconstructed from the LOWEST declared ordinal. Declaring variants out of
ordinal order, `[(5,"a"),(1,"b")]`, the source takes `ALL_VARIANTS[0].0`:
the placeholder is the instance of ordinal `5` (the first declared), while
the lowest declared ordinal is `1`, whose reconstruction yields the
distinct instance `(1,"b")`. -/
theorem enum_dumb_not_lowest_ordinal :
    (mkEnumImpl "lib" "E" [(5, "a"), (1, "b")]).strict_type_info.map TypeInfo.dumb
      = .ok (5, "a")
    ∧ (mkEnumImpl "lib" "E" [(5, "a"), (1, "b")]).tryFrom 1 = .ok (1, "b")
    ∧ ([(5, "a"), (1, "b")].map (Prod.fst (β := String))).min? = some 1
    ∧ ((5 : Nat), "a") ≠ ((1 : Nat), "b") :=
  ⟨rfl, rfl, rfl, by decide⟩

/-- C1 (amended): for every enum whose declared variant set passes
validation, the placeholder of the introspection record is the instance
reconstructed from the FIRST declared variant's ordinal
(`ALL_VARIANTS[0].0`) — which coincides with the lowest-ordinal variant
exactly when the declaration lists variants in ascending ordinal order —
and in the spec-modelled implementation that reconstruction succeeds. -/
theorem enum_dumb_is_first_declared (lib tn : String) (v : Nat × String)
    (rest : List (Nat × String))
    (h : StrictSum.strict_check_variants (strict_name tn) (v :: rest) = .ok ()) :
    (mkEnumImpl lib tn (v :: rest)).strict_type_info.map TypeInfo.dumb = .ok v := by
  simp only [StrictEnumImpl.strict_type_info, mkEnumImpl]
  rw [h]
  have hfind : enumTryFrom tn (v :: rest) v.1 = .ok v := by
    simp [enumTryFrom, List.find?_cons_of_pos]
  simp only [List.headI]
  rw [hfind]
  rfl

/-- Witness for C1 (amended) at a two-variant enum declared in ascending
order. -/
theorem enum_dumb_is_first_declared_witness :
    (mkEnumImpl "lib" "Color" ((0, "Red") :: [(1, "Green")])).strict_type_info.map
      TypeInfo.dumb = .ok (0, "Red") :=
  enum_dumb_is_first_declared "lib" "Color" (0, "Red") [(1, "Green")] (by rfl)

